import Mathlib

/-!
Shallow embedding of the cfhoot game coordinator (`GameDurableObject` in the
Worker source) and its message handlers, together with theorems checking the
specification's claims about scoring, persistence, phase transitions and
input validation.

Conventions of the embedding:
* JavaScript numbers that may be fractional (answer indices, correct indices)
  are modelled as `ℚ`; epoch-millisecond timestamps, scores and timer seconds
  (typed `5|10|20|30|60` in the source) as `ℤ`.
* A JS object used as a string-keyed record is an association list
  `List (String × α)`; `setA` mirrors JS assignment (replace in place if the
  key exists, else append) and `lookupA` mirrors property access.
* The durable object's fields that the claims mention are collected in
  `GameDO`: the in-memory `state`, the snapshot persisted under the key
  "gameState" (`stored`), and the `timerInterval ≠ null` / `questionEnding`
  flags.  Persisting (`this.ctx.storage.put('gameState', this.state)`) is
  modelled by copying `state` into `stored`.
* A handler returns the updated `GameDO` plus the list of messages it sent:
  `Out.reply` for a send to the triggering socket, `Out.broadcast` for a
  fan-out to every session.
* `Math.round` is `jround`, `Math.floor` of an integer quotient is `Int.fdiv`,
  `Date.now()` is passed in as an explicit `now : ℤ`, and the randomly minted
  player id is passed in as an explicit `newId : String`.
-/

inductive GamePhase
  | lobby
  | question
  | leaderboard
  | podium
  | finished
deriving DecidableEq, Repr

/-- The `{answerIndices, timestamp}` record stored in `player.answers`. -/
structure AnswerRecord where
  answerIndices : List ℚ
  timestamp : ℤ
deriving DecidableEq, Repr

structure Player where
  id : String
  nickname : String
  score : ℤ
  answers : List (String × AnswerRecord)
  connected : Bool
deriving DecidableEq, Repr

structure Question where
  id : String
  text : String
  imageUrl : Option String
  answers : List String
  correctIndices : List ℚ
  timerSeconds : ℤ
  doublePoints : Bool
deriving DecidableEq, Repr

structure Quiz where
  id : String
  title : String
  questions : List Question
deriving DecidableEq, Repr

structure GameState where
  phase : GamePhase
  gamePin : String
  quiz : Option Quiz
  players : List (String × Player)
  currentQuestionIndex : ℤ
  questionStartTime : Option ℤ
  hostConnected : Bool
  timerPaused : Bool
  pausedAtSecondsLeft : Option ℤ
deriving DecidableEq, Repr

structure LeaderboardEntry where
  playerId : String
  nickname : String
  score : ℤ
  rank : ℕ
  lastAnswerCorrect : Bool
deriving DecidableEq, Repr

structure QuestionForPlayer where
  id : String
  text : String
  imageUrl : Option String
  answers : List String
  timerSeconds : ℤ
  doublePoints : Bool
  multipleChoice : Bool
deriving DecidableEq, Repr

inductive ServerMessage
  | error (message : String)
  | gameState (state : GameState)
  | playerJoined (player : Player) (playerCount : ℕ)
  | playerRejoined (player : Player) (playerCount : ℕ)
  | playerLeft (playerId : String) (playerCount : ℕ)
  | gameStarting
  | questionStart (question : QuestionForPlayer) (questionIndex : ℤ) (totalQuestions : ℕ)
  | timerTick (secondsLeft : ℤ)
  | answerReceived (playerId : String)
  | questionEnd (correctIndices : List ℚ) (scores : List LeaderboardEntry)
  | leaderboardUpdate (leaderboard : List LeaderboardEntry)
  | podiumReveal (position : ℕ) (player : Option LeaderboardEntry)
  | gameFinished (finalLeaderboard : List LeaderboardEntry)
deriving DecidableEq, Repr

inductive Out
  | reply (m : ServerMessage)
  | broadcast (m : ServerMessage)
deriving DecidableEq, Repr

/-- The per-socket `WebSocketSession` (minus the raw socket handle). -/
structure Session where
  playerId : Option String
  isHost : Bool
deriving DecidableEq, Repr

/-- The durable object's own fields relevant to the claims: in-memory state,
the snapshot persisted under `"gameState"`, whether `timerInterval` is
non-null, and the `questionEnding` guard flag. -/
structure GameDO where
  state : GameState
  stored : Option GameState
  timerActive : Bool
  questionEnding : Bool
deriving DecidableEq, Repr

def MAX_PLAYERS : ℕ := 200

/-- Whitespace for the purposes of `String.prototype.trim` (ASCII fragment). -/
def isJsSpace (c : Char) : Bool :=
  c = ' ' ∨ c = '\t' ∨ c = '\n' ∨ c = '\r'

/-- `s.trim()`: strip leading and trailing whitespace. -/
def jsTrim (s : String) : String :=
  ⟨((s.data.dropWhile isJsSpace).reverse.dropWhile isJsSpace).reverse⟩

/-- `toLowerCase` on one character (ASCII fragment). -/
def jsCharLower (c : Char) : Char :=
  if 'A' ≤ c ∧ c ≤ 'Z' then Char.ofNat (c.toNat + 32) else c

/-- `s.toLowerCase()` (ASCII fragment; the nicknames the claims concern are
ASCII). -/
def jsToLower (s : String) : String :=
  ⟨s.data.map jsCharLower⟩

/-- JS property read `obj[k]` on a string-keyed record. -/
def lookupA (k : String) : List (String × α) → Option α
  | [] => none
  | p :: ps => if p.1 = k then some p.2 else lookupA k ps

/-- JS property write `obj[k] = v`: replace in place when the key exists,
otherwise append. -/
def setA (k : String) (v : α) : List (String × α) → List (String × α)
  | [] => [(k, v)]
  | p :: ps => if p.1 = k then (k, v) :: ps else p :: setA k v ps

theorem lookupA_setA_self (k : String) (v : α) (l : List (String × α)) :
    lookupA k (setA k v l) = some v := by
  induction l with
  | nil => simp [setA, lookupA]
  | cons p ps ih =>
      by_cases h : p.1 = k
      · simp [setA, h, lookupA]
      · simp [setA, h, lookupA, ih]

theorem lookupA_setA_ne (k k2 : String) (v : α) (l : List (String × α))
    (h : k2 ≠ k) : lookupA k2 (setA k v l) = lookupA k2 l := by
  have hne : k ≠ k2 := Ne.symm h
  induction l with
  | nil => simp [setA, lookupA, hne]
  | cons p ps ih =>
      by_cases hp : p.1 = k
      · subst hp
        simp [setA, lookupA, hne]
      · simp only [setA, if_neg hp]
        by_cases hp2 : p.1 = k2
        · simp [lookupA, hp2]
        · simp [lookupA, hp2, ih]

theorem lookupA_map (k : String) (f : α → β) (l : List (String × α)) :
    lookupA k (l.map fun p => (p.1, f p.2)) = (lookupA k l).map f := by
  induction l with
  | nil => simp [lookupA]
  | cons p ps ih =>
      by_cases h : p.1 = k
      · simp [lookupA, h]
      · simp [lookupA, h, ih]

/-- `this.state.quiz?.questions[this.state.currentQuestionIndex]` (a negative
or out-of-range index yields `undefined`). -/
def currentQuestion (st : GameState) : Option Question :=
  match st.quiz with
  | none => none
  | some qz =>
      if 0 ≤ st.currentQuestionIndex then qz.questions[st.currentQuestionIndex.toNat]?
      else none

/-- `Math.round`: round half toward positive infinity. -/
def jround (x : ℚ) : ℤ := ⌊x + 1 / 2⌋

/-- The correctness test scoring uses: build the two JS `Set`s and compare
`size` plus membership of every player answer in the correct set. -/
def jsSetEq (a b : List ℚ) : Prop :=
  a.toFinset.card = b.toFinset.card ∧ ∀ x ∈ a.toFinset, x ∈ b.toFinset

instance (a b : List ℚ) : Decidable (jsSetEq a b) := by
  unfold jsSetEq; infer_instance

theorem jsSetEq_iff (a b : List ℚ) : jsSetEq a b ↔ a.toFinset = b.toFinset := by
  constructor
  · rintro ⟨hcard, hsub⟩
    exact Finset.eq_of_subset_of_card_le (fun x hx => hsub x hx) (le_of_eq hcard.symm)
  · intro h
    exact ⟨by rw [h], fun x hx => by rw [h] at hx; exact hx⟩

/-- Stable descending insertion, used to model the (stable) JS
`sort((a, b) => b.score - a.score)`. -/
def insertDesc (x : LeaderboardEntry) : List LeaderboardEntry → List LeaderboardEntry
  | [] => [x]
  | y :: ys => if y.score ≤ x.score then x :: y :: ys else y :: insertDesc x ys

def sortByScoreDesc : List LeaderboardEntry → List LeaderboardEntry
  | [] => []
  | x :: xs => insertDesc x (sortByScoreDesc xs)

/-- `calculateLeaderboard`: map players to entries (with `lastAnswerCorrect`
for the current question), sort by descending score, assign ranks 1..N. -/
def calculateLeaderboard (st : GameState) : List LeaderboardEntry :=
  let base := st.players.map fun kp =>
    let player := kp.2
    let lastAnswerCorrect :=
      match currentQuestion st with
      | none => false
      | some q =>
          match lookupA q.id player.answers with
          | none => false
          | some a => decide (jsSetEq a.answerIndices q.correctIndices)
    { playerId := player.id, nickname := player.nickname, score := player.score,
      rank := 0, lastAnswerCorrect := lastAnswerCorrect : LeaderboardEntry }
  ((sortByScoreDesc base).enum).map fun ie => { ie.2 with rank := ie.1 + 1 }

/-- `getPublicState`: `{ ...this.state }`, a shallow copy — value-equal to the
state itself. -/
def getPublicState (st : GameState) : GameState :=
  { phase := st.phase, gamePin := st.gamePin, quiz := st.quiz,
    players := st.players, currentQuestionIndex := st.currentQuestionIndex,
    questionStartTime := st.questionStartTime, hostConnected := st.hostConnected,
    timerPaused := st.timerPaused, pausedAtSecondsLeft := st.pausedAtSecondsLeft }

/-- The per-player scoring step of `endQuestion`, body of the
`for (const player of Object.values(this.state.players))` loop. -/
def scorePlayer (q : Question) (startTime : ℤ) (maxPoints timeWindow : ℚ)
    (player : Player) : Player :=
  match lookupA q.id player.answers with
  | none => player
  | some answer =>
      if jsSetEq answer.answerIndices q.correctIndices then
        let responseTime : ℚ := ((answer.timestamp - startTime : ℤ) : ℚ)
        let timeBonus := max 0 (1 - responseTime / timeWindow)
        let points := jround (maxPoints * (1 / 2 + 1 / 2 * timeBonus))
        { player with score := player.score + points }
      else player

/-- `endQuestion` (the synchronous part; the 3-second delayed
`showLeaderboard` / `showPodium` transitions are separate events): guard on
`questionEnding` and phase, clear the timer, score every player, persist,
broadcast `question_end`, reset the guard.  On the missing-question early
return the source leaves `questionEnding` set; the embedding keeps that. -/
def endQuestion (c : GameDO) : GameDO × List Out :=
  if c.questionEnding then (c, [])
  else if c.state.phase ≠ GamePhase.question then (c, [])
  else
    let c1 : GameDO := { c with questionEnding := true, timerActive := false }
    match currentQuestion c1.state, c1.state.questionStartTime with
    | some q, some startTime =>
        let maxPoints : ℚ := if q.doublePoints then 2000 else 1000
        let timeWindow : ℚ := (q.timerSeconds : ℚ) * 1000
        let players := c1.state.players.map fun kp =>
          (kp.1, scorePlayer q startTime maxPoints timeWindow kp.2)
        let st := { c1.state with players := players }
        let scores := calculateLeaderboard st
        ({ c1 with state := st, stored := some st, questionEnding := false },
         [Out.broadcast (ServerMessage.questionEnd q.correctIndices scores)])
    | _, _ => (c1, [])

/-- `checkAllPlayersAnswered`: end the question early when every connected
player has an answer for the current question (requires a running, unpaused
timer). -/
def checkAllPlayersAnswered (c : GameDO) : GameDO × List Out :=
  if c.state.phase ≠ GamePhase.question then (c, [])
  else if ¬ c.timerActive then (c, [])
  else if c.state.timerPaused then (c, [])
  else
    match currentQuestion c.state with
    | none => (c, [])
    | some q =>
        let connectedPlayers := (c.state.players.map fun kp => kp.2).filter fun p => p.connected
        let allAnswered := connectedPlayers.all fun p => (lookupA q.id p.answers).isSome
        if allAnswered ∧ connectedPlayers.length > 0 then endQuestion c else (c, [])

/-- `handlePlayerAnswer`: validate session, phase, question id and indices,
reject re-answers, record `{answerIndices, timestamp}`, broadcast
`answer_received`, then run the all-answered early-termination check.
The source does not call `saveState` here. -/
def handlePlayerAnswer (c : GameDO) (session : Session) (questionId : String)
    (answerIndices : List ℚ) (now : ℤ) : GameDO × List Out :=
  match session.playerId with
  | none => (c, [Out.reply (ServerMessage.error "Not joined as player")])
  | some pid =>
      if c.state.phase ≠ GamePhase.question then
        (c, [Out.reply (ServerMessage.error "Not in question phase")])
      else
        match lookupA pid c.state.players with
        | none => (c, [])
        | some player =>
            match currentQuestion c.state with
            | none => (c, [Out.reply (ServerMessage.error "Invalid question")])
            | some currentQ =>
                if currentQ.id ≠ questionId then
                  (c, [Out.reply (ServerMessage.error "Invalid question")])
                else if answerIndices = [] ∨ ∃ i ∈ answerIndices, i < 0 ∨ 4 ≤ i then
                  (c, [Out.reply (ServerMessage.error "Invalid answer indices")])
                else if (lookupA questionId player.answers).isSome then
                  (c, [Out.reply (ServerMessage.error "Already answered")])
                else
                  let player2 := { player with
                    answers := setA questionId
                      { answerIndices := answerIndices, timestamp := now } player.answers }
                  let c2 := { c with state :=
                    { c.state with players := setA pid player2 c.state.players } }
                  let rest := checkAllPlayersAnswered c2
                  (rest.1, Out.broadcast (ServerMessage.answerReceived pid) :: rest.2)

/-- `handlePlayerJoin`: role, phase, nickname-length, capacity and duplicate
checks in source order; on success mint the player, persist, broadcast
`player_joined` with `Object.keys(this.state.players).length`, and send
`game_state` to the joiner.  The randomly generated id is the `newId`
argument. -/
def handlePlayerJoin (c : GameDO) (session : Session) (newId : String)
    (nickname : String) : GameDO × Session × List Out :=
  if session.isHost then
    (c, session, [Out.reply (ServerMessage.error "Host cannot join as player")])
  else if c.state.phase ≠ GamePhase.lobby then
    (c, session, [Out.reply (ServerMessage.error "Game already in progress")])
  else if nickname = "" ∨ (jsTrim nickname).length = 0 ∨ (jsTrim nickname).length > 50 then
    (c, session, [Out.reply (ServerMessage.error "Invalid nickname (must be 1-50 characters)")])
  else if MAX_PLAYERS ≤ c.state.players.length then
    (c, session, [Out.reply (ServerMessage.error "Game is full (max 200 players)")])
  else if jsTrim (jsToLower nickname) ∈ c.state.players.map (fun kp => jsToLower kp.2.nickname) then
    (c, session, [Out.reply (ServerMessage.error "Nickname already taken")])
  else
    let player : Player := { id := newId, nickname := (jsTrim nickname), score := 0,
                             answers := [], connected := true }
    let st := { c.state with players := setA newId player c.state.players }
    let playerCount := st.players.length
    ({ c with state := st, stored := some st },
     { session with playerId := some newId },
     [Out.broadcast (ServerMessage.playerJoined player playerCount),
      Out.reply (ServerMessage.gameState (getPublicState st))])

/-- The first failing per-question validation message of `handleHostCreateQuiz`,
or `none` when the question passes. -/
def questionValidationError (q : Question) : Option String :=
  if q.id = "" ∨ q.text = "" ∨ q.answers.length ≠ 4 then
    some "Invalid question: must have id, text, and 4 answers"
  else if q.correctIndices = [] ∨ ∃ i ∈ q.correctIndices, i < 0 ∨ 4 ≤ i then
    some "Invalid question: correctIndices must be valid indices 0-3"
  else if q.timerSeconds ∉ ([5, 10, 20, 30, 60] : List ℤ) then
    some "Invalid question: timerSeconds must be 5, 10, 20, 30, or 60"
  else none

/-- `handleHostCreateQuiz`: host-only; validate title/questions and each
question in order; on success assign the quiz, persist and broadcast
`game_state`. -/
def handleHostCreateQuiz (c : GameDO) (session : Session) (quiz : Quiz) :
    GameDO × List Out :=
  if ¬ session.isHost then (c, [Out.reply (ServerMessage.error "Not authorized")])
  else if quiz.title = "" ∨ quiz.questions.length = 0 then
    (c, [Out.reply (ServerMessage.error "Invalid quiz: must have title and at least one question")])
  else
    match quiz.questions.findSome? questionValidationError with
    | some msg => (c, [Out.reply (ServerMessage.error msg)])
    | none =>
        let st := { c.state with quiz := some quiz }
        ({ c with state := st, stored := some st },
         [Out.broadcast (ServerMessage.gameState (getPublicState st))])

/-- `showLeaderboard`: set `phase = leaderboard`, persist, broadcast the
leaderboard. -/
def showLeaderboard (c : GameDO) : GameDO × List Out :=
  let st := { c.state with phase := GamePhase.leaderboard }
  ({ c with state := st, stored := some st },
   [Out.broadcast (ServerMessage.leaderboardUpdate (calculateLeaderboard st))])

/-- `handleHostShowLeaderboard`: authorization check only, then
`showLeaderboard` unconditionally. -/
def handleHostShowLeaderboard (c : GameDO) (session : Session) : GameDO × List Out :=
  if ¬ session.isHost then (c, [Out.reply (ServerMessage.error "Not authorized")])
  else showLeaderboard c

/-- `showPodium` (synchronous part): set `phase = podium` and persist; the
`podium_reveal` broadcasts and the later `phase = finished` transition are
delayed events (`setTimeout` at 1s/3s/5s) outside this step. -/
def showPodium (c : GameDO) : GameDO × List Out :=
  let st := { c.state with phase := GamePhase.podium }
  ({ c with state := st, stored := some st }, [])

/-- `handleHostShowPodium`: authorization check only, then `showPodium`
unconditionally. -/
def handleHostShowPodium (c : GameDO) (session : Session) : GameDO × List Out :=
  if ¬ session.isHost then (c, [Out.reply (ServerMessage.error "Not authorized")])
  else showPodium c

/-- The constructor's `blockConcurrencyWhile` body for a present snapshot:
reset all connection flags, and if the snapshot was mid-question with the
timer already expired by wall clock, advance the phase to `leaderboard` and
persist.  No scoring is performed here.  The storage keeps the originally
loaded snapshot unless the expired branch writes the updated one. -/
def initFromStored (loaded : GameState) (now : ℤ) : GameDO :=
  let st0 := { loaded with
    hostConnected := false,
    players := loaded.players.map fun kp : String × Player =>
      (kp.1, { kp.2 with connected := false }) }
  match st0.phase, st0.questionStartTime, st0.quiz with
  | GamePhase.question, some startTime, some _ =>
      match currentQuestion st0 with
      | some q =>
          let elapsed := (now - startTime).fdiv 1000
          if q.timerSeconds ≤ elapsed then
            let st1 := { st0 with phase := GamePhase.leaderboard }
            { state := st1, stored := some st1, timerActive := false, questionEnding := false }
          else
            { state := st0, stored := some loaded, timerActive := false, questionEnding := false }
      | none =>
          { state := st0, stored := some loaded, timerActive := false, questionEnding := false }
  | _, _, _ =>
      { state := st0, stored := some loaded, timerActive := false, questionEnding := false }

/-- The messages `handleWebSocket` sends to a newly accepted socket:
`game_state` first, then phase-specific catch-up (mid-question
`question_start` with the image only for the host plus one `timer_tick`;
leaderboard update; podium reveals and, when finished, `game_finished`).
The timer-restart side effect of the mid-question branch re-enters
`endQuestion`, which is modelled separately. -/
def connectSends (c : GameDO) (isHost : Bool) (now : ℤ) : List ServerMessage :=
  let first := [ServerMessage.gameState (getPublicState c.state)]
  let midQuestion :=
    match c.state.phase, c.state.questionStartTime, c.state.quiz with
    | GamePhase.question, some startTime, some qz =>
        match currentQuestion c.state with
        | some q =>
            let elapsed := (now - startTime).fdiv 1000
            let remaining := max 0 (q.timerSeconds - elapsed)
            let questionForPlayer : QuestionForPlayer :=
              { id := q.id, text := q.text, answers := q.answers,
                timerSeconds := q.timerSeconds, doublePoints := q.doublePoints,
                multipleChoice := q.correctIndices.length > 1,
                imageUrl := if isHost then q.imageUrl else none }
            [ServerMessage.questionStart questionForPlayer c.state.currentQuestionIndex
               qz.questions.length,
             ServerMessage.timerTick remaining]
        | none => []
    | _, _, _ => []
  let onLeaderboard :=
    if c.state.phase = GamePhase.leaderboard then
      [ServerMessage.leaderboardUpdate (calculateLeaderboard c.state)]
    else []
  let onPodium :=
    if c.state.phase = GamePhase.podium ∨ c.state.phase = GamePhase.finished then
      let leaderboard := calculateLeaderboard c.state
      [ServerMessage.podiumReveal 3 leaderboard[2]?,
       ServerMessage.podiumReveal 2 leaderboard[1]?,
       ServerMessage.podiumReveal 1 leaderboard[0]?] ++
      (if c.state.phase = GamePhase.finished then
        [ServerMessage.gameFinished leaderboard] else [])
    else []
  first ++ midQuestion ++ onLeaderboard ++ onPodium

/-! ## Specification-side definitions

These formalise the conditions and formulas the specification states, to be
compared with the embedded handlers. -/

/-- The points the specification's scoring rule assigns to a player for
question `q` started at `startTime`: `round(maxPoints · (0.5 + 0.5 ·
max(0, 1 − responseTime/timeWindow)))` when the answer's index set equals the
correct index set, else 0. -/
def claimPoints (q : Question) (startTime : ℤ) (player : Player) : ℤ :=
  match lookupA q.id player.answers with
  | none => 0
  | some a =>
      if a.answerIndices.toFinset = q.correctIndices.toFinset then
        jround ((if q.doublePoints then (2000 : ℚ) else 1000) *
          (1 / 2 + 1 / 2 *
            max 0 (1 - ((a.timestamp - startTime : ℤ) : ℚ) / ((q.timerSeconds : ℚ) * 1000))))
      else 0

/-- The join-acceptance condition the specification states: not the host, in
the lobby, trimmed nickname of 1-50 characters, no case-insensitive
duplicate, and strictly fewer than 200 players. -/
def joinOk (c : GameDO) (session : Session) (nickname : String) : Prop :=
  session.isHost = false ∧ c.state.phase = GamePhase.lobby ∧
  1 ≤ (jsTrim nickname).length ∧ (jsTrim nickname).length ≤ 50 ∧
  jsTrim (jsToLower nickname) ∉ c.state.players.map (fun kp => jsToLower kp.2.nickname) ∧
  c.state.players.length < MAX_PLAYERS

instance (c : GameDO) (session : Session) (nickname : String) :
    Decidable (joinOk c session nickname) := by
  unfold joinOk; infer_instance

/-- The error message `handlePlayerJoin` replies with, following the source's
check order. -/
def joinErrorMsg (c : GameDO) (session : Session) (nickname : String) : String :=
  if session.isHost then "Host cannot join as player"
  else if c.state.phase ≠ GamePhase.lobby then "Game already in progress"
  else if nickname = "" ∨ (jsTrim nickname).length = 0 ∨ (jsTrim nickname).length > 50 then
    "Invalid nickname (must be 1-50 characters)"
  else if MAX_PLAYERS ≤ c.state.players.length then "Game is full (max 200 players)"
  else "Nickname already taken"

/-- The number of players whose `connected` flag is set. -/
def connectedCount (st : GameState) : ℕ :=
  ((st.players.map fun kp => kp.2).filter fun p => p.connected).length

/-- The quiz-acceptance condition as the code enforces it (the claim's
`correctIndices ⊆ {0,1,2,3}` weakened to the interval check `0 ≤ i < 4` the
source performs, without integrality). -/
def createQuizOkAmended (quiz : Quiz) : Prop :=
  quiz.title ≠ "" ∧ quiz.questions ≠ [] ∧
  ∀ q ∈ quiz.questions, q.id ≠ "" ∧ q.text ≠ "" ∧ q.answers.length = 4 ∧
    q.correctIndices ≠ [] ∧ (∀ i ∈ q.correctIndices, 0 ≤ i ∧ i < 4) ∧
    q.timerSeconds ∈ ([5, 10, 20, 30, 60] : List ℤ)

instance (quiz : Quiz) : Decidable (createQuizOkAmended quiz) := by
  unfold createQuizOkAmended; infer_instance

/-- The error message `handleHostCreateQuiz` replies with on a rejected quiz,
following the source's check order. -/
def createQuizErrorMsg (quiz : Quiz) : String :=
  if quiz.title = "" ∨ quiz.questions.length = 0 then
    "Invalid quiz: must have title and at least one question"
  else
    match quiz.questions.findSome? questionValidationError with
    | some msg => msg
    | none => ""

/-- The phase graph the specification claims:
`lobby→question→(leaderboard→question)*→podium→finished`. -/
def allowedPhaseEdge (a b : GamePhase) : Prop :=
  (a = GamePhase.lobby ∧ b = GamePhase.question) ∨
  (a = GamePhase.question ∧ b = GamePhase.leaderboard) ∨
  (a = GamePhase.leaderboard ∧ b = GamePhase.question) ∨
  (a = GamePhase.question ∧ b = GamePhase.podium) ∨
  (a = GamePhase.leaderboard ∧ b = GamePhase.podium) ∨
  (a = GamePhase.podium ∧ b = GamePhase.finished)

instance (a b : GamePhase) : Decidable (allowedPhaseEdge a b) := by
  unfold allowedPhaseEdge; infer_instance

/-- The payloads of the `game_state` messages in a message list. -/
def sentStates (msgs : List ServerMessage) : List GameState :=
  msgs.filterMap fun m =>
    match m with
    | ServerMessage.gameState st => some st
    | _ => none

/-- The payloads of the `game_state` messages in a handler's output. -/
def sentStatesOut (outs : List Out) : List GameState :=
  sentStates (outs.map fun o =>
    match o with
    | Out.reply m => m
    | Out.broadcast m => m)

/-- The answer-indices validity test the claim describes: non-empty, every
element in the half-open interval `[0, 4)` — with no integrality check. -/
def answerIndicesValid (l : List ℚ) : Prop :=
  l ≠ [] ∧ ∀ i ∈ l, 0 ≤ i ∧ i < 4

instance (l : List ℚ) : Decidable (answerIndicesValid l) := by
  unfold answerIndicesValid; infer_instance

/-! ## Concrete fixtures

The solo-game scenario of the specification (one question, `timerSeconds=10`,
`correctIndices=[2]`, a player answering `[2]` two seconds in), plus small
variations used by counterexamples. -/

def q0 : Question :=
  { id := "q1", text := "Q", imageUrl := none, answers := ["a", "b", "c", "d"],
    correctIndices := [2], timerSeconds := 10, doublePoints := false }

def quiz0 : Quiz :=
  { id := "quiz1", title := "T", questions := [q0] }

def p0 : Player :=
  { id := "p1", nickname := "Alice", score := 0,
    answers := [("q1", { answerIndices := [2], timestamp := 2000 })], connected := true }

def st0 : GameState :=
  { phase := GamePhase.question, gamePin := "123456", quiz := some quiz0,
    players := [("p1", p0)], currentQuestionIndex := 0, questionStartTime := some 0,
    hostConnected := true, timerPaused := false, pausedAtSecondsLeft := none }

def c0 : GameDO :=
  { state := st0, stored := some st0, timerActive := false, questionEnding := false }

/-- A second player who is connected and has not answered. -/
def p2fix : Player :=
  { id := "p2", nickname := "Bob", score := 0, answers := [], connected := true }

/-- Mid-question state with two players and a running timer, snapshot in sync,
before either player has answered. -/
def stTwo : GameState :=
  { st0 with players := [("p1", { p0 with answers := [] }), ("p2", p2fix)] }

def cTwo : GameDO :=
  { state := stTwo, stored := some stTwo, timerActive := true, questionEnding := false }

def playerSession : Session := { playerId := some "p1", isHost := false }

def hostSession : Session := { playerId := none, isHost := true }

def joinSession : Session := { playerId := none, isHost := false }

/-- A finished game, used to exhibit a backward phase transition. -/
def cFin : GameDO :=
  { state := { st0 with phase := GamePhase.finished }, stored := none,
    timerActive := false, questionEnding := false }

/-- A lobby with one disconnected player already in the roster. -/
def pOld : Player :=
  { id := "p0", nickname := "Old", score := 0, answers := [], connected := false }

def cLobby : GameDO :=
  { state := { phase := GamePhase.lobby, gamePin := "123456", quiz := none,
               players := [("p0", pOld)], currentQuestionIndex := -1,
               questionStartTime := none, hostConnected := true, timerPaused := false,
               pausedAtSecondsLeft := none },
    stored := none, timerActive := false, questionEnding := false }

/-- A quiz whose only question has the fractional correct index `3/2`. -/
def qHalf : Question :=
  { id := "qx", text := "T", imageUrl := none, answers := ["a", "b", "c", "d"],
    correctIndices := [3 / 2], timerSeconds := 10, doublePoints := false }

def quizHalf : Quiz :=
  { id := "quizx", title := "T", questions := [qHalf] }

/-! ## Supporting lemmas -/

theorem scorePlayer_eq_claimPoints (q : Question) (startTime : ℤ) (p : Player) :
    scorePlayer q startTime (if q.doublePoints then (2000 : ℚ) else 1000)
        ((q.timerSeconds : ℚ) * 1000) p =
      { p with score := p.score + claimPoints q startTime p } := by
  unfold scorePlayer claimPoints
  cases h : lookupA q.id p.answers with
  | none => cases p <;> simp
  | some a =>
      by_cases hc : jsSetEq a.answerIndices q.correctIndices
      · have hc2 : a.answerIndices.toFinset = q.correctIndices.toFinset :=
          (jsSetEq_iff _ _).mp hc
        simp only [hc2, if_pos hc, if_true]
      · have hc2 : ¬ a.answerIndices.toFinset = q.correctIndices.toFinset :=
          fun h2 => hc ((jsSetEq_iff _ _).mpr h2)
        simp only [if_neg hc, if_neg hc2]
        cases p <;> simp

/-- C1: when `endQuestion` runs on an unguarded mid-question state, each
player's entry is replaced by the same player with exactly the
specification's points added: `round(maxPoints · (0.5 + 0.5 · max(0, 1 −
responseTime/timeWindow)))` on an exact set match of the answer indices with
the correct indices (`maxPoints` doubled by `doublePoints`), and zero points
on a set mismatch or missing answer. -/
theorem endQuestion_scores_each_player (c : GameDO) (q : Question) (startTime : ℤ)
    (hguard : c.questionEnding = false) (hphase : c.state.phase = GamePhase.question)
    (hq : currentQuestion c.state = some q) (ht : c.state.questionStartTime = some startTime)
    (htimer : 0 < q.timerSeconds) (pid : String) :
    lookupA pid (endQuestion c).1.state.players =
      (lookupA pid c.state.players).map
        (fun p => { p with score := p.score + claimPoints q startTime p }) := by
  unfold endQuestion
  rw [hguard]
  simp only [Bool.false_eq_true, if_false, hphase, ne_eq, not_true_eq_false]
  simp only [hq, ht]
  rw [lookupA_map]
  cases lookupA pid c.state.players <;> simp [scorePlayer_eq_claimPoints]

theorem endQuestion_scores_each_player_witness :
    c0.questionEnding = false ∧ c0.state.phase = GamePhase.question ∧
    currentQuestion c0.state = some q0 ∧ c0.state.questionStartTime = some 0 ∧
    0 < q0.timerSeconds ∧
    lookupA "p1" (endQuestion c0).1.state.players =
      (lookupA "p1" c0.state.players).map
        (fun p => { p with score := p.score + claimPoints q0 0 p }) :=
  ⟨rfl, rfl, by decide, rfl, by decide,
   endQuestion_scores_each_player c0 q0 0 rfl rfl (by decide) rfl (by decide) "p1"⟩

/-- C3: `endQuestion` is not idempotent.  On the solo fixture a first
invocation scores 900 points and leaves the phase at `question` with the
`questionEnding` guard cleared; a second invocation re-runs the scoring loop
(1800 points) and emits a second `question_end` broadcast. -/
theorem endQuestion_second_run_rescores :
    ((endQuestion c0).1.state.players.map fun kp => kp.2.score) = [900] ∧
    (endQuestion c0).1.state.phase = GamePhase.question ∧
    (endQuestion c0).1.questionEnding = false ∧
    ((endQuestion (endQuestion c0).1).1.state.players.map fun kp => kp.2.score) = [1800] ∧
    (endQuestion (endQuestion c0).1).2 ≠ [] ∧
    (endQuestion (endQuestion c0).1).1.state ≠ (endQuestion c0).1.state := by
  with_unfolding_all decide

/-- C4 counterexample: with the game finished, a `host_show_leaderboard`
message moves the phase back to `leaderboard` — a backward edge outside the
claimed phase graph. -/
theorem hostShowLeaderboard_backward_edge :
    cFin.state.phase = GamePhase.finished ∧
    (handleHostShowLeaderboard cFin hostSession).1.state.phase = GamePhase.leaderboard ∧
    ¬ allowedPhaseEdge GamePhase.finished GamePhase.leaderboard ∧
    GamePhase.finished ≠ GamePhase.leaderboard := by
  with_unfolding_all decide

/-- C4 amended: `handleHostShowLeaderboard` and `handleHostShowPodium` run
their phase changes unconditionally for a host sender: from any phase
whatsoever the former sets `leaderboard` and the latter sets `podium`, so the
claimed graph (no backward edges) is not enforced for these handlers. -/
theorem hostShow_handlers_unconditional (c : GameDO) (session : Session)
    (hhost : session.isHost = true) :
    (handleHostShowLeaderboard c session).1.state.phase = GamePhase.leaderboard ∧
    (handleHostShowPodium c session).1.state.phase = GamePhase.podium := by
  unfold handleHostShowLeaderboard handleHostShowPodium showLeaderboard showPodium
  simp [hhost]

theorem hostShow_handlers_unconditional_witness :
    hostSession.isHost = true ∧
    (handleHostShowLeaderboard cFin hostSession).1.state.phase = GamePhase.leaderboard ∧
    (handleHostShowPodium cFin hostSession).1.state.phase = GamePhase.podium :=
  ⟨rfl, hostShow_handlers_unconditional cFin hostSession rfl⟩

/-- C5 counterexample: restart on a snapshot whose question timer has expired
(start 0, `timerSeconds = 10`, `now = 20000`).  Initialization advances the
phase to `leaderboard`, yet the player whose stored answer `[2]` exactly
matches `correctIndices = [2]` — worth 900 points by the specification's
formula — keeps score 0: no scoring is applied. -/
theorem initFromStored_skips_scoring :
    (initFromStored st0 20000).state.phase = GamePhase.leaderboard ∧
    (lookupA "p1" (initFromStored st0 20000).state.players).map Player.score = some 0 ∧
    claimPoints q0 0 p0 = 900 ∧ (0 : ℤ) ≠ 900 := by
  with_unfolding_all decide

/-- C5 amended: when the loaded snapshot is mid-question and
`now − questionStartTime ≥ timerSeconds·1000`, initialization advances the
phase to `leaderboard` and persists that state, but performs no scoring:
every player is carried over with the same score and answers, only the
`connected` flag reset. -/
theorem initFromStored_advances_phase_without_scoring (loaded : GameState) (now : ℤ)
    (q : Question) (startTime : ℤ)
    (hphase : loaded.phase = GamePhase.question)
    (ht : loaded.questionStartTime = some startTime)
    (hq : currentQuestion loaded = some q)
    (hexp : q.timerSeconds * 1000 ≤ now - startTime) :
    (initFromStored loaded now).state.phase = GamePhase.leaderboard ∧
    (initFromStored loaded now).stored = some (initFromStored loaded now).state ∧
    ∀ pid, lookupA pid (initFromStored loaded now).state.players =
      (lookupA pid loaded.players).map fun p => { p with connected := false } := by
  have hfd : q.timerSeconds ≤ (now - startTime).fdiv 1000 := by
    rw [Int.fdiv_eq_ediv _ (by norm_num)]
    exact (Int.le_ediv_iff_mul_le (by norm_num)).mpr (by linarith)
  obtain ⟨ph, pin, oqz, players, idx, qst, hcon, tp, psl⟩ := loaded
  dsimp only at hphase ht hq ⊢
  subst hphase
  subst ht
  cases oqz with
  | none =>
      unfold currentQuestion at hq
      exact absurd hq (by simp)
  | some qz =>
      unfold initFromStored
      unfold currentQuestion at hq ⊢
      dsimp only at hq ⊢
      rw [hq]
      simp only [if_pos hfd]
      refine ⟨trivial, trivial, fun pid => ?_⟩
      exact lookupA_map pid (fun p => { p with connected := false }) players

theorem initFromStored_advances_phase_without_scoring_witness :
    st0.phase = GamePhase.question ∧ st0.questionStartTime = some 0 ∧
    currentQuestion st0 = some q0 ∧ q0.timerSeconds * 1000 ≤ 20000 - 0 ∧
    ((initFromStored st0 20000).state.phase = GamePhase.leaderboard ∧
     (initFromStored st0 20000).stored = some (initFromStored st0 20000).state ∧
     ∀ pid, lookupA pid (initFromStored st0 20000).state.players =
       (lookupA pid st0.players).map fun p => { p with connected := false }) :=
  ⟨rfl, rfl, rfl, by decide,
   initFromStored_advances_phase_without_scoring st0 20000 q0 0 rfl rfl rfl (by decide)⟩

theorem trim_empty_length : ((jsTrim "").length = 0) := by decide

theorem joinOk_iff_checks (c : GameDO) (session : Session) (nickname : String) :
    joinOk c session nickname ↔
      ¬ session.isHost = true ∧ c.state.phase = GamePhase.lobby ∧
      ¬ (nickname = "" ∨ (jsTrim nickname).length = 0 ∨ (jsTrim nickname).length > 50) ∧
      ¬ MAX_PLAYERS ≤ c.state.players.length ∧
      ¬ jsTrim (jsToLower nickname) ∈ c.state.players.map (fun kp => jsToLower kp.2.nickname) := by
  unfold joinOk
  constructor
  · rintro ⟨hh, hp, hlen1, hlen2, hdup, hcap⟩
    refine ⟨by simp [hh], hp, ?_, by omega, hdup⟩
    rintro (he | h0 | h50)
    · rw [he] at hlen1
      have h0 := trim_empty_length
      omega
    · omega
    · omega
  · rintro ⟨hh, hp, hnick, hcap, hdup⟩
    push_neg at hnick
    refine ⟨by simp at hh; exact hh, hp, by omega, by omega, hdup, by omega⟩

theorem handlePlayerJoin_spec (c : GameDO) (session : Session) (newId nickname : String) :
    handlePlayerJoin c session newId nickname =
      if joinOk c session nickname then
        (let player : Player := { id := newId, nickname := (jsTrim nickname), score := 0,
                                  answers := [], connected := true }
         let st := { c.state with players := setA newId player c.state.players }
         ({ c with state := st, stored := some st },
          { session with playerId := some newId },
          [Out.broadcast (ServerMessage.playerJoined player st.players.length),
           Out.reply (ServerMessage.gameState (getPublicState st))]))
      else (c, session, [Out.reply (ServerMessage.error (joinErrorMsg c session nickname))]) := by
  unfold handlePlayerJoin joinErrorMsg
  by_cases h1 : session.isHost = true
  · have hno : ¬ joinOk c session nickname := by
      rw [joinOk_iff_checks]
      intro h
      exact h.1 h1
    simp [h1, hno]
  · by_cases h2 : c.state.phase = GamePhase.lobby
    case neg =>
      have hno : ¬ joinOk c session nickname := by
        rw [joinOk_iff_checks]
        intro h
        exact h2 h.2.1
      simp [h1, h2, hno]
    case pos =>
      by_cases h3 : nickname = "" ∨ (jsTrim nickname).length = 0 ∨ (jsTrim nickname).length > 50
      · have hno : ¬ joinOk c session nickname := by
          rw [joinOk_iff_checks]
          intro h
          exact h.2.2.1 h3
        simp [h1, h2, h3, hno]
      · by_cases h4 : MAX_PLAYERS ≤ c.state.players.length
        · have hno : ¬ joinOk c session nickname := by
            rw [joinOk_iff_checks]
            intro h
            exact h.2.2.2.1 h4
          simp [h1, h2, h3, h4, hno]
        · by_cases h5 : jsTrim (jsToLower nickname) ∈
              c.state.players.map (fun kp => jsToLower kp.2.nickname)
          · have hno : ¬ joinOk c session nickname := by
              rw [joinOk_iff_checks]
              intro h
              exact h.2.2.2.2 h5
            simp [h1, h2, h3, h4, h5, hno]
          · have hyes : joinOk c session nickname :=
              (joinOk_iff_checks c session nickname).mpr ⟨h1, h2, h3, h4, h5⟩
            simp [h1, h2, h3, h4, h5, hyes]

/-- C6: `handlePlayerJoin` accepts exactly when the sender is not the host,
the phase is `lobby`, the trimmed nickname has 1-50 characters, no existing
player's nickname matches case-insensitively, and there are fewer than 200
players; acceptance adds the trimmed-nickname player, persists, broadcasts
`player_joined` and sends `game_state`, while any violation replies with an
error message and leaves coordinator and session unchanged. -/
theorem handlePlayerJoin_validation (c : GameDO) (session : Session)
    (newId nickname : String) :
    handlePlayerJoin c session newId nickname =
      if joinOk c session nickname then
        (let player : Player := { id := newId, nickname := (jsTrim nickname), score := 0,
                                  answers := [], connected := true }
         let st := { c.state with players := setA newId player c.state.players }
         ({ c with state := st, stored := some st },
          { session with playerId := some newId },
          [Out.broadcast (ServerMessage.playerJoined player st.players.length),
           Out.reply (ServerMessage.gameState (getPublicState st))]))
      else (c, session, [Out.reply (ServerMessage.error (joinErrorMsg c session nickname))]) :=
  handlePlayerJoin_spec c session newId nickname

/-- The result of a join into a lobby that already holds one disconnected
player. -/
def rJoin : GameDO × Session × List Out :=
  handlePlayerJoin cLobby joinSession "idB" "Bob"

/-- C7 counterexample: joining a lobby that contains one disconnected player
broadcasts `player_joined` with `playerCount = 2` — the total roster size —
while only 1 player is connected after the join. -/
theorem playerJoined_count_not_connected :
    rJoin.2.2 = [Out.broadcast (ServerMessage.playerJoined
                   { id := "idB", nickname := "Bob", score := 0, answers := [],
                     connected := true } 2),
                 Out.reply (ServerMessage.gameState (getPublicState rJoin.1.state))] ∧
    connectedCount rJoin.1.state = 1 ∧ (2 : ℕ) ≠ 1 := by
  with_unfolding_all decide

/-- C7 amended: for every accepted `player_join`, the `playerCount` field of
the `player_joined` broadcast equals the total number of entries in the
players map after the join — all players ever joined, connected or not — not
the connected count. -/
theorem playerJoined_count_total (c : GameDO) (session : Session)
    (newId nickname : String) (h : joinOk c session nickname) :
    (handlePlayerJoin c session newId nickname).2.2 =
      [Out.broadcast (ServerMessage.playerJoined
         { id := newId, nickname := (jsTrim nickname), score := 0, answers := [],
           connected := true }
         (handlePlayerJoin c session newId nickname).1.state.players.length),
       Out.reply (ServerMessage.gameState
         (getPublicState (handlePlayerJoin c session newId nickname).1.state))] := by
  rw [handlePlayerJoin_spec, if_pos h]

theorem playerJoined_count_total_witness :
    joinOk cLobby joinSession "Bob" ∧
    (handlePlayerJoin cLobby joinSession "idB" "Bob").2.2 =
      [Out.broadcast (ServerMessage.playerJoined
         { id := "idB", nickname := (jsTrim "Bob"), score := 0, answers := [],
           connected := true }
         (handlePlayerJoin cLobby joinSession "idB" "Bob").1.state.players.length),
       Out.reply (ServerMessage.gameState
         (getPublicState (handlePlayerJoin cLobby joinSession "idB" "Bob").1.state))] :=
  ⟨by decide, playerJoined_count_total cLobby joinSession "idB" "Bob" (by decide)⟩

theorem questionValidationError_eq_none (q : Question) :
    questionValidationError q = none ↔
      (q.id ≠ "" ∧ q.text ≠ "" ∧ q.answers.length = 4 ∧ q.correctIndices ≠ [] ∧
       (∀ i ∈ q.correctIndices, 0 ≤ i ∧ i < 4) ∧
       q.timerSeconds ∈ ([5, 10, 20, 30, 60] : List ℤ)) := by
  unfold questionValidationError
  split_ifs with hA hB hC
  · simp only [reduceCtorEq, false_iff]
    rintro ⟨h1, h2, h3, h4, h5, h6⟩
    rcases hA with he | he | he
    · exact h1 he
    · exact h2 he
    · exact he h3
  · simp only [reduceCtorEq, false_iff]
    rintro ⟨h1, h2, h3, h4, h5, h6⟩
    rcases hB with he | ⟨i, hi, hviol⟩
    · exact h4 he
    · rcases hviol with hlt | hge
      · exact absurd hlt (not_lt.mpr (h5 i hi).1)
      · exact absurd hge (not_le.mpr (h5 i hi).2)
  · simp only [true_iff]
    push_neg at hA hB
    refine ⟨hA.1, hA.2.1, hA.2.2, hB.1, ?_, hC⟩
    intro i hi
    have h := hB.2 i hi
    push_neg at h
    exact h
  · simp only [reduceCtorEq, false_iff]
    rintro ⟨h1, h2, h3, h4, h5, h6⟩
    exact hC h6

/-- Unfolding equation for `handleHostCreateQuiz`: accepts the quiz
iff the title is non-empty, the questions array is non-empty, and every
question has non-empty id and text, exactly 4 answers, a non-empty
`correctIndices` with every element `i` satisfying `0 ≤ i < 4` (integrality
is not checked, so fractional indices such as `1.5` pass), and
`timerSeconds ∈ {5,10,20,30,60}`; failures reply an error to the sender
with no mutation, and success assigns the quiz, persists, and broadcasts
`game_state`.  A non-host sender always gets `error`. -/
theorem handleHostCreateQuiz_spec (c : GameDO) (session : Session) (quiz : Quiz) :
    handleHostCreateQuiz c session quiz =
      if session.isHost = false then
        (c, [Out.reply (ServerMessage.error "Not authorized")])
      else if createQuizOkAmended quiz then
        (let st := { c.state with quiz := some quiz }
         ({ c with state := st, stored := some st },
          [Out.broadcast (ServerMessage.gameState (getPublicState st))]))
      else (c, [Out.reply (ServerMessage.error (createQuizErrorMsg quiz))]) := by
  unfold handleHostCreateQuiz createQuizErrorMsg
  by_cases h1 : session.isHost = true
  · simp only [h1, Bool.true_eq_false, if_false, not_true_eq_false]
    by_cases h2 : quiz.title = "" ∨ quiz.questions.length = 0
    · have hno : ¬ createQuizOkAmended quiz := by
        rintro ⟨ht, hq, hall⟩
        rcases h2 with he | he
        · exact ht he
        · exact hq (List.length_eq_zero.mp he)
      simp only [if_pos h2, if_neg hno]
    · cases hfs : quiz.questions.findSome? questionValidationError with
      | some msg =>
          have hno : ¬ createQuizOkAmended quiz := by
            rintro ⟨ht, hq, hall⟩
            have hnone : ∀ q ∈ quiz.questions, questionValidationError q = none :=
              fun q hqmem => (questionValidationError_eq_none q).mpr (hall q hqmem)
            rw [List.findSome?_eq_none_iff.mpr hnone] at hfs
            cases hfs
          simp only [if_neg h2, hfs, if_neg hno]
      | none =>
          have hyes : createQuizOkAmended quiz := by
            push_neg at h2
            refine ⟨h2.1, fun he => h2.2 (by rw [he]; rfl), ?_⟩
            intro q hqmem
            exact (questionValidationError_eq_none q).mp
              (List.findSome?_eq_none_iff.mp hfs q hqmem)
          simp only [if_neg h2, hfs, if_pos hyes]
  · have h1f : session.isHost = false := by
      cases hb : session.isHost
      · rfl
      · exact absurd hb h1
    simp only [h1f, Bool.false_eq_true, if_false, if_true, not_false_eq_true, if_pos]

/-- C8 amended claim theorem: see `createQuizOkAmended` — acceptance from a
host socket is equivalent to the amended condition (interval check `0 ≤ i <
4` on `correctIndices`, no integrality), failures reply an error with no
mutation, and success assigns the quiz, persists, and broadcasts
`game_state`. -/
theorem handleHostCreateQuiz_validation (c : GameDO) (session : Session) (quiz : Quiz) :
    handleHostCreateQuiz c session quiz =
      if session.isHost = false then
        (c, [Out.reply (ServerMessage.error "Not authorized")])
      else if createQuizOkAmended quiz then
        (let st := { c.state with quiz := some quiz }
         ({ c with state := st, stored := some st },
          [Out.broadcast (ServerMessage.gameState (getPublicState st))]))
      else (c, [Out.reply (ServerMessage.error (createQuizErrorMsg quiz))]) :=
  handleHostCreateQuiz_spec c session quiz

/-- C8 counterexample: a host-submitted quiz whose only question has
`correctIndices = [1.5]` is accepted (the quiz is assigned and `game_state`
broadcast), although `1.5` is not one of the indices `{0,1,2,3}` the claim
allows. -/
theorem createQuiz_accepts_fractional_index :
    (handleHostCreateQuiz cLobby hostSession quizHalf).1.state.quiz = some quizHalf ∧
    (handleHostCreateQuiz cLobby hostSession quizHalf).2 =
      [Out.broadcast (ServerMessage.gameState
        (getPublicState (handleHostCreateQuiz cLobby hostSession quizHalf).1.state))] ∧
    ¬ ((3 : ℚ) / 2 ∈ ({0, 1, 2, 3} : Finset ℚ)) ∧
    (3 : ℚ) / 2 ∈ qHalf.correctIndices := by
  with_unfolding_all decide

theorem lookupA_mem {k : String} {v : α} {l : List (String × α)}
    (h : lookupA k l = some v) : (k, v) ∈ l := by
  induction l with
  | nil => simp [lookupA] at h
  | cons p ps ih =>
      unfold lookupA at h
      by_cases hp : p.1 = k
      · rw [if_pos hp] at h
        injection h with h2
        exact List.mem_cons.mpr (Or.inl (by rw [← hp, ← h2]))
      · rw [if_neg hp] at h
        exact List.mem_cons_of_mem _ (ih h)

theorem mem_setA_of_ne {k k0 : String} {v v0 : α} {l : List (String × α)}
    (h : (k, v) ∈ l) (hne : k ≠ k0) : (k, v) ∈ setA k0 v0 l := by
  induction l with
  | nil => cases h
  | cons p ps ih =>
      unfold setA
      by_cases hp : p.1 = k0
      · rw [if_pos hp]
        rcases List.mem_cons.mp h with he | hm
        · exact absurd ((congrArg Prod.fst he).trans hp) hne
        · exact List.mem_cons_of_mem _ hm
      · rw [if_neg hp]
        rcases List.mem_cons.mp h with he | hm
        · rw [he]
          exact List.mem_cons_self _ _
        · exact List.mem_cons_of_mem _ (ih hm)

theorem scorePlayer_answers (q : Question) (startTime : ℤ) (mp tw : ℚ) (p : Player) :
    (scorePlayer q startTime mp tw p).answers = p.answers := by
  unfold scorePlayer
  cases lookupA q.id p.answers with
  | none => rfl
  | some a =>
      by_cases hc : jsSetEq a.answerIndices q.correctIndices
      · simp [if_pos hc]
      · simp [if_neg hc]

theorem endQuestion_preserves_answers (c : GameDO) (pid : String) :
    (lookupA pid (endQuestion c).1.state.players).map Player.answers =
      (lookupA pid c.state.players).map Player.answers := by
  unfold endQuestion
  by_cases h1 : c.questionEnding = true
  · rw [if_pos h1]
  · rw [if_neg h1]
    by_cases h2 : c.state.phase ≠ GamePhase.question
    · rw [if_pos h2]
    · rw [if_neg h2]
      cases hq : currentQuestion c.state with
      | none => simp [hq]
      | some q =>
          cases ht : c.state.questionStartTime with
          | none => simp [hq, ht]
          | some startTime =>
              simp only [hq, ht]
              rw [lookupA_map]
              cases lookupA pid c.state.players with
              | none => rfl
              | some p => simp [scorePlayer_answers]

theorem checkAll_result (c : GameDO) :
    checkAllPlayersAnswered c = (c, []) ∨ checkAllPlayersAnswered c = endQuestion c := by
  unfold checkAllPlayersAnswered
  by_cases h1 : c.state.phase ≠ GamePhase.question
  · rw [if_pos h1]
    exact Or.inl rfl
  · rw [if_neg h1]
    by_cases h2 : ¬ c.timerActive = true
    · rw [if_pos h2]
      exact Or.inl rfl
    · rw [if_neg h2]
      by_cases h3 : c.state.timerPaused = true
      · rw [if_pos h3]
        exact Or.inl rfl
      · rw [if_neg h3]
        cases hq : currentQuestion c.state with
        | none => exact Or.inl rfl
        | some q =>
            simp only
            by_cases h4 :
              ((((c.state.players.map fun kp => kp.2).filter fun p => p.connected).all
                  fun p => (lookupA q.id p.answers).isSome) = true ∧
                ((c.state.players.map fun kp => kp.2).filter fun p => p.connected).length > 0)
            · rw [if_pos h4]
              exact Or.inr rfl
            · rw [if_neg h4]
              exact Or.inl rfl

theorem checkAll_preserves_answers (c : GameDO) (pid : String) :
    (lookupA pid (checkAllPlayersAnswered c).1.state.players).map Player.answers =
      (lookupA pid c.state.players).map Player.answers := by
  rcases checkAll_result c with h | h
  · rw [h]
  · rw [h]
    exact endQuestion_preserves_answers c pid

theorem checkAll_no_end (c : GameDO) (q : Question)
    (hq : currentQuestion c.state = some q) (k : String) (p2 : Player)
    (hmem : (k, p2) ∈ c.state.players) (hconn : p2.connected = true)
    (hnoans : lookupA q.id p2.answers = none) :
    checkAllPlayersAnswered c = (c, []) := by
  have hallf :
      (((c.state.players.map fun kp => kp.2).filter fun p => p.connected).all
        fun p => (lookupA q.id p.answers).isSome) = false := by
    apply List.all_eq_false.mpr
    refine ⟨p2, ?_, ?_⟩
    · apply List.mem_filter.mpr
      exact ⟨List.mem_map.mpr ⟨(k, p2), hmem, rfl⟩, hconn⟩
    · rw [hnoans]
      simp
  unfold checkAllPlayersAnswered
  by_cases h1 : c.state.phase ≠ GamePhase.question
  · rw [if_pos h1]
  · rw [if_neg h1]
    by_cases h2 : ¬ c.timerActive = true
    · rw [if_pos h2]
    · rw [if_neg h2]
      by_cases h3 : c.state.timerPaused = true
      · rw [if_pos h3]
      · rw [if_neg h3]
        simp only [hq]
        rw [if_neg]
        rintro ⟨hall, _⟩
        rw [hallf] at hall
        cases hall

/-- C2 amended: when `handlePlayerAnswer` accepts and records an answer and
some other connected player still lacks an answer for the current question
(so no early question end fires), the handler leaves the persisted snapshot
untouched: the snapshot stays whatever it was — in particular, if it was in
sync before the call it no longer equals the in-memory state, which now
carries the recorded answer.  The source records the answer without calling
`saveState`. -/
theorem handlePlayerAnswer_snapshot_stale (c : GameDO) (session : Session)
    (pid questionId : String) (answerIndices : List ℚ) (now : ℤ)
    (q : Question) (player : Player)
    (hsid : session.playerId = some pid)
    (hphase : c.state.phase = GamePhase.question)
    (hplayer : lookupA pid c.state.players = some player)
    (hq : currentQuestion c.state = some q)
    (hqid : q.id = questionId)
    (hvalid : answerIndicesValid answerIndices)
    (hfresh : lookupA questionId player.answers = none)
    (hsync : c.stored = some c.state)
    (k : String) (p2 : Player)
    (hk : lookupA k c.state.players = some p2) (hkne : k ≠ pid)
    (hconn : p2.connected = true) (hnoans : lookupA questionId p2.answers = none) :
    (handlePlayerAnswer c session questionId answerIndices now).1.stored = c.stored ∧
    (handlePlayerAnswer c session questionId answerIndices now).1.stored ≠
      some (handlePlayerAnswer c session questionId answerIndices now).1.state ∧
    lookupA pid (handlePlayerAnswer c session questionId answerIndices now).1.state.players =
      some { player with
             answers := setA questionId
               { answerIndices := answerIndices, timestamp := now } player.answers } := by
  obtain ⟨hne, hbounds⟩ := hvalid
  have hvcond : ¬ (answerIndices = [] ∨ ∃ i ∈ answerIndices, i < 0 ∨ 4 ≤ i) := by
    rintro (he | ⟨i, hi, hviol⟩)
    · exact hne he
    · rcases hviol with h | h
      · exact absurd h (not_lt.mpr (hbounds i hi).1)
      · exact absurd h (not_le.mpr (hbounds i hi).2)
  have hnp : ¬ (c.state.phase ≠ GamePhase.question) := by simp [hphase]
  have hqid2 : ¬ (q.id ≠ questionId) := by simp [hqid]
  have hnoans2 : lookupA q.id p2.answers = none := by rw [hqid]; exact hnoans
  have hnoend := checkAll_no_end
    { c with
      state := { c.state with
                 players := setA pid
                   { player with
                     answers := setA questionId
                       { answerIndices := answerIndices, timestamp := now }
                       player.answers }
                   c.state.players } }
    q hq k p2 (mem_setA_of_ne (lookupA_mem hk) hkne) hconn hnoans2
  have hrun : handlePlayerAnswer c session questionId answerIndices now =
      ({ c with
         state := { c.state with
                    players := setA pid
                      { player with
                        answers := setA questionId
                          { answerIndices := answerIndices, timestamp := now }
                          player.answers }
                      c.state.players } },
       [Out.broadcast (ServerMessage.answerReceived pid)]) := by
    unfold handlePlayerAnswer
    simp only [hsid, if_neg hnp, hplayer, hq, if_neg hqid2, if_neg hvcond, hfresh,
      Option.isSome_none, Bool.false_eq_true, if_false, hnoend]
  rw [hrun]
  refine ⟨rfl, ?_, lookupA_setA_self pid _ c.state.players⟩
  rw [hsync]
  intro heq
  injection heq with heq2
  have h3 := congrArg (fun st => lookupA pid st.players) heq2
  simp only [hplayer, lookupA_setA_self] at h3
  injection h3 with h4
  have h5 := congrArg Player.answers h4
  dsimp only at h5
  have h6 := lookupA_setA_self questionId
    { answerIndices := answerIndices, timestamp := now } player.answers
  rw [← h5, hfresh] at h6
  cases h6

/-- The first player of the two-player fixture, before answering. -/
def p1w : Player := { p0 with answers := [] }

/-- The result of the first player answering `[2]` at `now = 2000` while the
second player has not answered. -/
def rAnswer : GameDO × List Out :=
  handlePlayerAnswer cTwo playerSession "q1" [2] 2000

/-- C2 counterexample: `handlePlayerAnswer` accepts and records the answer
(broadcasting `answer_received`), yet the persisted snapshot is left behind:
it no longer equals the in-memory state. -/
theorem playerAnswer_snapshot_not_synced :
    (Out.broadcast (ServerMessage.answerReceived "p1") ∈ rAnswer.2) ∧
    rAnswer.1.stored ≠ some rAnswer.1.state := by
  with_unfolding_all decide

theorem handlePlayerAnswer_snapshot_stale_witness :
    playerSession.playerId = some "p1" ∧
    cTwo.state.phase = GamePhase.question ∧
    lookupA "p1" cTwo.state.players = some p1w ∧
    currentQuestion cTwo.state = some q0 ∧
    q0.id = "q1" ∧
    answerIndicesValid [2] ∧
    lookupA "q1" p1w.answers = none ∧
    cTwo.stored = some cTwo.state ∧
    lookupA "p2" cTwo.state.players = some p2fix ∧
    "p2" ≠ "p1" ∧
    p2fix.connected = true ∧
    lookupA "q1" p2fix.answers = none ∧
    ((handlePlayerAnswer cTwo playerSession "q1" [2] 2000).1.stored = cTwo.stored ∧
     (handlePlayerAnswer cTwo playerSession "q1" [2] 2000).1.stored ≠
       some (handlePlayerAnswer cTwo playerSession "q1" [2] 2000).1.state ∧
     lookupA "p1" (handlePlayerAnswer cTwo playerSession "q1" [2] 2000).1.state.players =
       some { p1w with
              answers := setA "q1" { answerIndices := [2], timestamp := 2000 }
                p1w.answers }) :=
  ⟨rfl, rfl, rfl, rfl, rfl, by decide, rfl, rfl, rfl, by decide, rfl, rfl,
   handlePlayerAnswer_snapshot_stale cTwo playerSession "p1" "q1" [2] 2000 q0 p1w
     rfl rfl rfl rfl rfl (by decide) rfl rfl "p2" p2fix rfl (by decide) rfl rfl⟩

/-- C10: under the non-index preconditions (joined player, question phase,
matching question id, no previous answer), `handlePlayerAnswer` accepts the
indices iff they form a non-empty list with every element in the half-open
interval `[0, 4)` — integrality is never checked, so a fractional entry such
as `1.5` passes — and an accepted answer is recorded against the question id
with the submission timestamp. -/
theorem handlePlayerAnswer_no_integrality (c : GameDO) (session : Session)
    (pid questionId : String) (answerIndices : List ℚ) (now : ℤ)
    (q : Question) (player : Player)
    (hsid : session.playerId = some pid)
    (hphase : c.state.phase = GamePhase.question)
    (hplayer : lookupA pid c.state.players = some player)
    (hq : currentQuestion c.state = some q)
    (hqid : q.id = questionId)
    (hfresh : lookupA questionId player.answers = none) :
    ((Out.broadcast (ServerMessage.answerReceived pid) ∈
        (handlePlayerAnswer c session questionId answerIndices now).2) ↔
      answerIndicesValid answerIndices) ∧
    (answerIndicesValid answerIndices →
      (lookupA pid
          (handlePlayerAnswer c session questionId answerIndices now).1.state.players).map
          Player.answers =
        some (setA questionId { answerIndices := answerIndices, timestamp := now }
          player.answers)) := by
  have hnp : ¬ (c.state.phase ≠ GamePhase.question) := by simp [hphase]
  have hqid2 : ¬ (q.id ≠ questionId) := by simp [hqid]
  by_cases hval : answerIndicesValid answerIndices
  · obtain ⟨hne, hbounds⟩ := hval
    have hvcond : ¬ (answerIndices = [] ∨ ∃ i ∈ answerIndices, i < 0 ∨ 4 ≤ i) := by
      rintro (he | ⟨i, hi, hviol⟩)
      · exact hne he
      · rcases hviol with h | h
        · exact absurd h (not_lt.mpr (hbounds i hi).1)
        · exact absurd h (not_le.mpr (hbounds i hi).2)
    have hrun : handlePlayerAnswer c session questionId answerIndices now =
        ((checkAllPlayersAnswered
            { c with
              state := { c.state with
                         players := setA pid
                           { player with
                             answers := setA questionId
                               { answerIndices := answerIndices, timestamp := now }
                               player.answers }
                           c.state.players } }).1,
         Out.broadcast (ServerMessage.answerReceived pid) ::
           (checkAllPlayersAnswered
             { c with
               state := { c.state with
                          players := setA pid
                            { player with
                              answers := setA questionId
                                { answerIndices := answerIndices, timestamp := now }
                                player.answers }
                            c.state.players } }).2) := by
      unfold handlePlayerAnswer
      simp only [hsid, if_neg hnp, hplayer, hq, if_neg hqid2, if_neg hvcond, hfresh,
        Option.isSome_none, Bool.false_eq_true, if_false]
    rw [hrun]
    constructor
    · exact iff_of_true (List.mem_cons_self _ _) ⟨hne, hbounds⟩
    · intro _
      rw [checkAll_preserves_answers]
      have h2 := lookupA_setA_self pid
        { player with
          answers := setA questionId { answerIndices := answerIndices, timestamp := now }
            player.answers }
        c.state.players
      dsimp only
      rw [h2]
      rfl
  · have hvcond2 : answerIndices = [] ∨ ∃ i ∈ answerIndices, i < 0 ∨ 4 ≤ i := by
      unfold answerIndicesValid at hval
      push_neg at hval
      by_cases he : answerIndices = []
      · exact Or.inl he
      · obtain ⟨i, hi, hb⟩ := hval he
        refine Or.inr ⟨i, hi, ?_⟩
        by_cases hlt : i < 0
        · exact Or.inl hlt
        · exact Or.inr (hb (not_lt.mp hlt))
    have hrun : handlePlayerAnswer c session questionId answerIndices now =
        (c, [Out.reply (ServerMessage.error "Invalid answer indices")]) := by
      unfold handlePlayerAnswer
      simp only [hsid, if_neg hnp, hplayer, hq, if_neg hqid2, if_pos hvcond2]
    rw [hrun]
    constructor
    · apply iff_of_false
      · simp
      · exact hval
    · intro hv
      exact absurd hv hval

theorem handlePlayerAnswer_no_integrality_witness :
    playerSession.playerId = some "p1" ∧
    cTwo.state.phase = GamePhase.question ∧
    lookupA "p1" cTwo.state.players = some p1w ∧
    currentQuestion cTwo.state = some q0 ∧
    q0.id = "q1" ∧
    lookupA "q1" p1w.answers = none ∧
    (((Out.broadcast (ServerMessage.answerReceived "p1") ∈
         (handlePlayerAnswer cTwo playerSession "q1" [mkRat 3 2] 2000).2) ↔
       answerIndicesValid [mkRat 3 2]) ∧
     (answerIndicesValid [mkRat 3 2] →
       (lookupA "p1"
           (handlePlayerAnswer cTwo playerSession "q1" [mkRat 3 2] 2000).1.state.players).map
           Player.answers =
         some (setA "q1" { answerIndices := [mkRat 3 2], timestamp := 2000 }
           p1w.answers))) :=
  ⟨rfl, rfl, rfl, rfl, rfl, rfl,
   handlePlayerAnswer_no_integrality cTwo playerSession "p1" "q1" [mkRat 3 2] 2000 q0 p1w
     rfl rfl rfl rfl rfl rfl⟩

/-- C9: `getPublicState` is the identity on the state value (the source's
`{ ...this.state }` shallow copy), and every `game_state` payload the
embedded senders produce — the connect-time send (to host and player sockets
alike), the `host_create_quiz` broadcast, and the `player_join` reply — is
exactly the full current in-memory `GameState`; in particular, when `quiz`
is non-null the payload contains the very `Quiz` value, with every
question's `correctIndices` and `imageUrl`. -/
theorem gameState_payloads_full :
    (∀ st, getPublicState st = st) ∧
    (∀ c (isHost : Bool) (now : ℤ), sentStates (connectSends c isHost now) = [c.state]) ∧
    (∀ c session quiz, sentStatesOut (handleHostCreateQuiz c session quiz).2 =
       List.replicate (sentStatesOut (handleHostCreateQuiz c session quiz).2).length
         (handleHostCreateQuiz c session quiz).1.state) ∧
    (∀ c session newId nickname,
       sentStatesOut (handlePlayerJoin c session newId nickname).2.2 =
         List.replicate (sentStatesOut (handlePlayerJoin c session newId nickname).2.2).length
           (handlePlayerJoin c session newId nickname).1.state) := by
  refine ⟨fun st => rfl, ?_, ?_, ?_⟩
  · intro c b now
    unfold connectSends
    cases hph : c.state.phase <;>
      cases hqs : c.state.questionStartTime <;>
        cases hqz : c.state.quiz <;>
          try simp [sentStates, getPublicState]
    all_goals
      cases hcq : currentQuestion c.state <;> simp [sentStates, getPublicState]
  · intro c session quiz
    rw [handleHostCreateQuiz_spec]
    split_ifs <;> simp [sentStatesOut, sentStates, getPublicState]
  · intro c session newId nickname
    rw [handlePlayerJoin_spec]
    split_ifs <;> simp [sentStatesOut, sentStates, getPublicState]
